import Mathlib

/-! Verification model of the gigvault/ra Registration Authority service.

The embedding follows the Go source:
- `internal/models` (`Enrollment` struct),
- `internal/storage/enrollment.go` (`EnrollmentStorage`: Create / GetByID /
  List / Update over a PostgreSQL table, modelled as a list of rows plus a
  SERIAL counter, with an availability flag standing for the database
  connection),
- `internal/service` (`RAService`: CreateEnrollment / ApproveEnrollment /
  RejectEnrollment / ListEnrollments).

Machine-level details abstracted: timestamps are natural numbers, the CSR
parser (`crypto.ParseCSR`, from the external shared library) is a function
parameter, and every operation additionally records the sequence of
repository calls and the number of CA-gateway calls it performs, so that
"never persisted" and "does not block on the CA" are statements about the
recorded traces.
-/

namespace RA

/-- What `crypto.ParseCSR` exposes of a parsed CSR that the service reads:
the subject common name (`csr.Subject.CommonName`). -/
structure ParsedCSR where
  subjectCommonName : String
  deriving Repr, DecidableEq

/-- Embedding of `internal/models.Enrollment`. `ApprovedBy`, `RejectedBy`, `RejectReason`
are nullable (`*string` in Go); timestamps are abstracted to `Nat`. -/
structure Enrollment where
  id : String
  commonName : String
  organization : String
  email : String
  csr : String
  status : String
  approvedBy : Option String
  rejectedBy : Option String
  rejectReason : Option String
  createdAt : Nat
  updatedAt : Nat
  deriving Repr, DecidableEq

/-- Errors a storage call can produce: the row was absent (`pgx.ErrNoRows`)
or the database was unreachable (connection / transient failure). -/
inductive StorageErr where
  | noRows
  | unavailable
  deriving Repr, DecidableEq

/-- The enrollments table: rows plus the `SERIAL` id counter. -/
structure Store where
  rows : List Enrollment
  nextId : Nat
  deriving Repr, DecidableEq

/-- Model of `EnrollmentStorage.Create`: INSERT returning the generated id, which is
written back into the record. Fails only when the database is unreachable. -/
def Store.create (avail : Bool) (st : Store) (e : Enrollment) :
    Except StorageErr (Enrollment × Store) :=
  if avail then
    let e' := { e with id := toString st.nextId }
    .ok (e', ⟨st.rows ++ [e'], st.nextId + 1⟩)
  else
    .error .unavailable

/-- Model of `EnrollmentStorage.GetByID`: SELECT ... WHERE id = $1. Returns
`noRows` when the id is absent, `unavailable` when the database is down. -/
def Store.getById (avail : Bool) (st : Store) (id : String) :
    Except StorageErr Enrollment :=
  if avail then
    match st.rows.find? (fun e => e.id = id) with
    | some e => .ok e
    | none => .error .noRows
  else
    .error .unavailable

/-- The column assignments of the UPDATE statement in
`EnrollmentStorage.Update`: only status, approved_by, rejected_by,
reject_reason and updated_at are written; every other column keeps the
stored row's value. -/
def Enrollment.applyUpdate (row e : Enrollment) : Enrollment :=
  { row with
    status := e.status
    approvedBy := e.approvedBy
    rejectedBy := e.rejectedBy
    rejectReason := e.rejectReason
    updatedAt := e.updatedAt }

/-- Model of `EnrollmentStorage.Update`: `UPDATE enrollments SET ... WHERE id = $6`.
The WHERE clause matches on id only — there is no status condition — and the
affected-row count is discarded (`_, err := s.db.Exec(...)`), so updating an
absent id is not an error. -/
def Store.update (avail : Bool) (st : Store) (e : Enrollment) :
    Except StorageErr Store :=
  if avail then
    .ok ⟨st.rows.map (fun row => if row.id = e.id then row.applyUpdate e else row),
         st.nextId⟩
  else
    .error .unavailable

/-- Toward `EnrollmentStorage.List`: optional status filter, ORDER BY created_at
DESC, LIMIT 100. The sort is defined below. -/
def insertByCreated (e : Enrollment) : List Enrollment → List Enrollment
  | [] => [e]
  | x :: xs => if x.createdAt ≤ e.createdAt then e :: x :: xs else x :: insertByCreated e xs

/-- Sorting by creation time, newest first (the ORDER BY created_at DESC of
the List query). -/
def sortByCreatedDesc : List Enrollment → List Enrollment
  | [] => []
  | x :: xs => insertByCreated x (sortByCreatedDesc xs)

/-- Model of `EnrollmentStorage.List`: when the filter string is non-empty the rows
are restricted to that status; rows come back ordered by created_at
descending and limited to 100. -/
def Store.list (avail : Bool) (st : Store) (status : String) :
    Except StorageErr (List Enrollment) :=
  if avail then
    let base := if status ≠ "" then st.rows.filter (fun e => e.status = status) else st.rows
    .ok ((sortByCreatedDesc base).take 100)
  else
    .error .unavailable

/-- The distinct error paths of `RAService`: each constructor corresponds to
one `fmt.Errorf` site in `internal/service`. `notFound`, `createFailed` and
`updateFailed` wrap the storage error (`%w`). -/
inductive RAError where
  | invalidCSR
  | identityMismatch
  | createFailed (cause : StorageErr)
  | notFound (cause : StorageErr)
  | invalidTransition
  | updateFailed (cause : StorageErr)
  deriving Repr, DecidableEq

/-- A repository call made by a service operation. -/
inductive RepoCall where
  | create (e : Enrollment)
  | getById (id : String)
  | update (e : Enrollment)
  deriving Repr, DecidableEq

/-- Result of one service operation: the returned value or error, the store
after the operation, the repository calls made, and the number of
CA-gateway calls made. -/
structure OpOut (α : Type) where
  res : Except RAError α
  store : Store
  repoCalls : List RepoCall
  caCalls : Nat
  deriving Repr

/-- Model of `RAService.CreateEnrollment`: parse the CSR (`crypto.ParseCSR`), reject
on parse failure, reject when the CSR subject common name differs from the
claimed one, otherwise build a record with status "pending" and persist it
via `storage.Create`. -/
def CreateEnrollment (parse : String → Option ParsedCSR) (avail : Bool)
    (st : Store) (now : Nat) (cn org email csrPEM : String) : OpOut Enrollment :=
  match parse csrPEM with
  | none => ⟨.error .invalidCSR, st, [], 0⟩
  | some csr =>
    if csr.subjectCommonName ≠ cn then
      ⟨.error .identityMismatch, st, [], 0⟩
    else
      let e : Enrollment :=
        { id := "", commonName := cn, organization := org, email := email,
          csr := csrPEM, status := "pending", approvedBy := none,
          rejectedBy := none, rejectReason := none, createdAt := now,
          updatedAt := now }
      match st.create avail e with
      | .error s => ⟨.error (.createFailed s), st, [.create e], 0⟩
      | .ok (e', st') => ⟨.ok e', st', [.create e], 0⟩

/-- The three field assignments `RAService.ApproveEnrollment` applies to
the record it read: status "approved", approved_by, updated_at. -/
def approvedVersion (e : Enrollment) (approvedBy : String) (now : Nat) :
    Enrollment :=
  { e with
    status := "approved"
    approvedBy := some approvedBy
    updatedAt := now }

/-- The four field assignments `RAService.RejectEnrollment` applies to the
record it read: status "rejected", rejected_by, reject_reason, updated_at. -/
def rejectedVersion (e : Enrollment) (rejectedBy reason : String) (now : Nat) :
    Enrollment :=
  { e with
    status := "rejected"
    rejectedBy := some rejectedBy
    rejectReason := some reason
    updatedAt := now }

/-- Model of `RAService.ApproveEnrollment`: GetByID (any failure is wrapped as
"enrollment not found"), require status "pending", then set status
"approved", approved_by and updated_at, and persist via `storage.Update`.
No CA-gateway call is made (the handoff is only logged as queued). -/
def ApproveEnrollment (availR availW : Bool) (st : Store) (now : Nat)
    (id approvedBy : String) : OpOut Unit :=
  match st.getById availR id with
  | .error s => ⟨.error (.notFound s), st, [.getById id], 0⟩
  | .ok e =>
    if e.status ≠ "pending" then
      ⟨.error .invalidTransition, st, [.getById id], 0⟩
    else
      let e' := approvedVersion e approvedBy now
      match st.update availW e' with
      | .error s => ⟨.error (.updateFailed s), st, [.getById id, .update e'], 0⟩
      | .ok st' => ⟨.ok (), st', [.getById id, .update e'], 0⟩

/-- Model of `RAService.RejectEnrollment`: GetByID (any failure wrapped as
"enrollment not found"), require status "pending", then set status
"rejected", rejected_by, reject_reason and updated_at, and persist. -/
def RejectEnrollment (availR availW : Bool) (st : Store) (now : Nat)
    (id rejectedBy reason : String) : OpOut Unit :=
  match st.getById availR id with
  | .error s => ⟨.error (.notFound s), st, [.getById id], 0⟩
  | .ok e =>
    if e.status ≠ "pending" then
      ⟨.error .invalidTransition, st, [.getById id], 0⟩
    else
      let e' := rejectedVersion e rejectedBy reason now
      match st.update availW e' with
      | .error s => ⟨.error (.updateFailed s), st, [.getById id, .update e'], 0⟩
      | .ok st' => ⟨.ok (), st', [.getById id, .update e'], 0⟩

/-- Model of `RAService.ListEnrollments`: delegates to `storage.List`. -/
def ListEnrollments (avail : Bool) (st : Store) (status : String) :
    Except StorageErr (List Enrollment) :=
  st.list avail status

/-! Interleaving decomposition of approve/reject.

`ApproveEnrollment` and `RejectEnrollment` are two storage round-trips: a
read-and-check phase (`GetByID` plus the "pending" test) and a commit phase
(the UPDATE). To reason about two concurrent callers sharing the store, the
operations are split at that boundary; decomposition lemmas below prove the
split equal to the monolithic definitions when storage is available. -/

/-- Read phase of `ApproveEnrollment`: `GetByID` plus the status check. -/
def approveCheck (st : Store) (id : String) : Except RAError Enrollment :=
  match st.getById true id with
  | .error s => .error (.notFound s)
  | .ok e => if e.status ≠ "pending" then .error .invalidTransition else .ok e

/-- Write phase of `ApproveEnrollment`: build the approved record from the
previously read `e` and run the UPDATE. -/
def approveCommit (st : Store) (e : Enrollment) (approvedBy : String) (now : Nat) :
    Store :=
  match st.update true (approvedVersion e approvedBy now) with
  | .ok st' => st'
  | .error _ => st

/-- Read phase of `RejectEnrollment`. -/
def rejectCheck (st : Store) (id : String) : Except RAError Enrollment :=
  match st.getById true id with
  | .error s => .error (.notFound s)
  | .ok e => if e.status ≠ "pending" then .error .invalidTransition else .ok e

/-- Write phase of `RejectEnrollment`. -/
def rejectCommit (st : Store) (e : Enrollment) (rejectedBy reason : String)
    (now : Nat) : Store :=
  match st.update true (rejectedVersion e rejectedBy reason now) with
  | .ok st' => st'
  | .error _ => st

/-! Reachable stores and the record invariant. -/

/-- The field discipline every row of the enrollments table satisfies:
its status is one of the three values the service writes, a pending row
has no actor fields, an approved row has exactly `approved_by`, a rejected
row has exactly `rejected_by` and `reject_reason`. -/
def RecordInv (e : Enrollment) : Prop :=
  (e.status = "pending" ∧ e.approvedBy = none ∧ e.rejectedBy = none ∧
      e.rejectReason = none)
  ∨ (e.status = "approved" ∧ e.approvedBy.isSome ∧ e.rejectedBy = none ∧
      e.rejectReason = none)
  ∨ (e.status = "rejected" ∧ e.approvedBy = none ∧ e.rejectedBy.isSome ∧
      e.rejectReason.isSome)

/-- Stores reachable from the empty table through the public service
operations, with arbitrary parser, storage availability, timestamps and
request fields. -/
inductive Reachable : Store → Prop where
  | empty : Reachable ⟨[], 1⟩
  | create (parse : String → Option ParsedCSR) (avail : Bool) (now : Nat)
      (cn org email csrPEM : String) {st : Store} : Reachable st →
      Reachable (CreateEnrollment parse avail st now cn org email csrPEM).store
  | approve (availR availW : Bool) (now : Nat) (id approvedBy : String)
      {st : Store} : Reachable st →
      Reachable (ApproveEnrollment availR availW st now id approvedBy).store
  | reject (availR availW : Bool) (now : Nat) (id rejectedBy reason : String)
      {st : Store} : Reachable st →
      Reachable (RejectEnrollment availR availW st now id rejectedBy reason).store

/-! Issuance, modelled from the spec. -/

/-- Modelled from the spec: the repository does not implement issuance —
`RAService.ApproveEnrollment` only logs that the enrollment is queued for
signing, `internal/grpc.CAClient.SignCSR` is the declared CA capability,
and the `issued` / `issuance_failed` statuses and the `certificate_serial`
field exist only in the spec (§3, §4.1, §9). `IssuanceRecord` is the
spec's view of an enrollment during the CA handoff. -/
structure IssuanceRecord where
  status : String
  certificateSerial : Option String
  csr : String
  deriving Repr, DecidableEq

/-- Modelled from the spec: the outcome of one CA Gateway `Sign` call —
success with a certificate and serial, a transient (network/timeout)
failure, or a permanent policy rejection (§4.3, §7). -/
inductive CAOutcome where
  | signed (certPEM serial : String)
  | transient
  | caRejected
  deriving Repr, DecidableEq

/-- Modelled from the spec: the errors `RequestIssuance` can signal (§7). -/
inductive IssueErr where
  | invalidTransition
  | caTransient
  | caRejectedErr
  deriving Repr, DecidableEq

/-- Modelled from the spec: `RequestIssuance` (§4.1). Requires status
`approved` or `issuance_failed`; on a successful CA sign the record becomes
`issued` with the returned serial recorded; on a CA failure the record
becomes `issuance_failed` (no serial) and a retryable or permanent error is
signalled. -/
def RequestIssuance (ca : CAOutcome) (r : IssuanceRecord) :
    Except IssueErr Unit × IssuanceRecord :=
  if r.status ≠ "approved" ∧ r.status ≠ "issuance_failed" then
    (.error .invalidTransition, r)
  else
    match ca with
    | .signed _ serial =>
        (.ok (), { r with status := "issued", certificateSerial := some serial })
    | .transient => (.error .caTransient, { r with status := "issuance_failed" })
    | .caRejected => (.error .caRejectedErr, { r with status := "issuance_failed" })

/-! Concrete fixtures for closed-form evaluations. -/

/-- Test parser fixture: every PEM string parses to a CSR with the given
fixed subject common name. -/
def constSubject (cn : String) : String → Option ParsedCSR :=
  fun _ => some ⟨cn⟩

/-- A single pending enrollment row. -/
def pendingRecord : Enrollment :=
  { id := "1", commonName := "svc.internal", organization := "Ops",
    email := "ops@example.com", csr := "CSRPEM", status := "pending",
    approvedBy := none, rejectedBy := none, rejectReason := none,
    createdAt := 0, updatedAt := 0 }

/-- A store holding exactly the pending row. -/
def pendingStore : Store := ⟨[pendingRecord], 2⟩

/-- A reachable demo store: create one enrollment, then approve it. -/
def demoApprovedStore : Store :=
  (ApproveEnrollment true true
    (CreateEnrollment (constSubject "svc.internal") true ⟨[], 1⟩ 0
      "svc.internal" "Ops" "ops@example.com" "CSRPEM").store
    1 "1" "alice").store

/-- The row `demoApprovedStore` holds. -/
def demoApprovedRecord : Enrollment :=
  { id := "1", commonName := "svc.internal", organization := "Ops",
    email := "ops@example.com", csr := "CSRPEM", status := "approved",
    approvedBy := some "alice", rejectedBy := none, rejectReason := none,
    createdAt := 0, updatedAt := 1 }

/-! Basic facts about the storage layer. -/

theorem getById_eq_ok {avail : Bool} {st : Store} {id : String} {e : Enrollment}
    (h : st.getById avail id = .ok e) :
    st.rows.find? (fun r => r.id = id) = some e ∧ avail = true := by
  cases avail with
  | false => simp [Store.getById] at h
  | true =>
    refine ⟨?_, rfl⟩
    cases hf : st.rows.find? (fun r => r.id = id) with
    | none => simp [Store.getById, hf] at h
    | some e₀ => simp [Store.getById, hf] at h; rw [h]

theorem applyUpdate_id (row e : Enrollment) : (row.applyUpdate e).id = row.id :=
  rfl

/-- Looking a row up after the unconditional UPDATE: the found row is the
previously found row, transformed when its id matches the updated id. -/
theorem find?_map_update (rows : List Enrollment) (e' : Enrollment) (id : String) :
    (rows.map (fun row => if row.id = e'.id then row.applyUpdate e' else row)).find?
        (fun r => r.id = id)
      = (rows.find? (fun r => r.id = id)).map
          (fun row => if row.id = e'.id then row.applyUpdate e' else row) := by
  rw [List.find?_map]
  have hp : ((fun (r : Enrollment) => decide (r.id = id)) ∘
      fun (row : Enrollment) => if row.id = e'.id then row.applyUpdate e' else row)
      = fun (r : Enrollment) => decide (r.id = id) := by
    funext r
    by_cases h : r.id = e'.id <;> simp [Function.comp, h, Enrollment.applyUpdate]
  rw [hp]

theorem getById_ok_id {avail : Bool} {st : Store} {id : String} {e : Enrollment}
    (h : st.getById avail id = .ok e) : e.id = id := by
  have hp := List.find?_some (getById_eq_ok h).1
  simpa using hp

theorem getById_true (st : Store) (id : String) :
    st.getById true id =
      match st.rows.find? (fun r => r.id = id) with
      | some e => .ok e
      | none => .error .noRows := rfl

theorem update_true (st : Store) (e : Enrollment) :
    st.update true e =
      .ok ⟨st.rows.map (fun row => if row.id = e.id then row.applyUpdate e else row),
           st.nextId⟩ := rfl

/-- Reading via `GetByID` on the store left by the unconditional UPDATE: the row found
for `id` is the previously found row with the UPDATE's column assignments
applied, whenever the updated record carries that id. -/
theorem getById_after_update (st : Store) (e e' : Enrollment) (id : String)
    (hfind : st.rows.find? (fun r => r.id = id) = some e)
    (hid : e'.id = id) (heid : e.id = id) :
    (⟨st.rows.map (fun row => if row.id = e'.id then row.applyUpdate e' else row),
        st.nextId⟩ : Store).getById true id = .ok (e.applyUpdate e') := by
  have h := find?_map_update st.rows e' id
  rw [hfind] at h
  simp only [Option.map_some'] at h
  rw [getById_true, h]
  simp [heid, hid]

/-- On a record whose status is not "pending", `ApproveEnrollment` fails
with the invalid-transition error and changes nothing. -/
theorem approve_notPending (availW : Bool) (st : Store) (now : Nat)
    (id approvedBy : String) (e : Enrollment)
    (hget : st.getById true id = .ok e) (hst : e.status ≠ "pending") :
    ApproveEnrollment true availW st now id approvedBy
      = ⟨.error .invalidTransition, st, [.getById id], 0⟩ := by
  simp [ApproveEnrollment, hget, hst]

/-- On a record whose status is not "pending", `RejectEnrollment` fails
with the invalid-transition error and changes nothing. -/
theorem reject_notPending (availW : Bool) (st : Store) (now : Nat)
    (id rejectedBy reason : String) (e : Enrollment)
    (hget : st.getById true id = .ok e) (hst : e.status ≠ "pending") :
    RejectEnrollment true availW st now id rejectedBy reason
      = ⟨.error .invalidTransition, st, [.getById id], 0⟩ := by
  simp [RejectEnrollment, hget, hst]

/-! Claim theorems. -/

/-- C1: for every CSR that parses but whose encoded subject common name is
not byte-for-byte equal to the claimed common name, `CreateEnrollment`
fails with the identity-mismatch error, leaves the store unchanged and
makes no repository call — in particular, `Create` is never called. -/
theorem createEnrollment_identityMismatch (parse : String → Option ParsedCSR)
    (avail : Bool) (st : Store) (now : Nat) (cn org email csrPEM : String)
    (csr : ParsedCSR) (hp : parse csrPEM = some csr)
    (hne : csr.subjectCommonName ≠ cn) :
    CreateEnrollment parse avail st now cn org email csrPEM =
      ⟨.error .identityMismatch, st, [], 0⟩ := by
  simp [CreateEnrollment, hp, hne]

/-- C1 witness: claimed "api.example.com" against CSR subject
"evil.example.com". -/
theorem createEnrollment_identityMismatch_witness :
    CreateEnrollment (constSubject "evil.example.com") true ⟨[], 1⟩ 0
        "api.example.com" "Org" "ops@example.com" "CSRPEM" =
      ⟨.error .identityMismatch, ⟨[], 1⟩, [], 0⟩ :=
  createEnrollment_identityMismatch (constSubject "evil.example.com") true
    ⟨[], 1⟩ 0 "api.example.com" "Org" "ops@example.com" "CSRPEM"
    ⟨"evil.example.com"⟩ rfl (by decide)

/-- C5: for every CSR that parses with subject common name equal to the
claimed one, `CreateEnrollment` succeeds, appends a new record to the
store, and returns an enrollment with status "pending". -/
theorem createEnrollment_success (parse : String → Option ParsedCSR)
    (st : Store) (now : Nat) (cn org email csrPEM : String) (csr : ParsedCSR)
    (hp : parse csrPEM = some csr) (heq : csr.subjectCommonName = cn) :
    ∃ e', (CreateEnrollment parse true st now cn org email csrPEM).res = .ok e'
      ∧ e'.status = "pending"
      ∧ (CreateEnrollment parse true st now cn org email csrPEM).store.rows
          = st.rows ++ [e'] := by
  refine ⟨{ id := toString st.nextId, commonName := cn, organization := org,
            email := email, csr := csrPEM, status := "pending",
            approvedBy := none, rejectedBy := none, rejectReason := none,
            createdAt := now, updatedAt := now }, ?_, rfl, ?_⟩ <;>
    simp [CreateEnrollment, hp, heq, Store.create]

/-- C5 witness: a matching CSR subject produces a persisted pending
enrollment. -/
theorem createEnrollment_success_witness :
    ∃ e', (CreateEnrollment (constSubject "api.example.com") true ⟨[], 1⟩ 0
        "api.example.com" "Org" "ops@example.com" "CSRPEM").res = .ok e'
      ∧ e'.status = "pending"
      ∧ (CreateEnrollment (constSubject "api.example.com") true ⟨[], 1⟩ 0
          "api.example.com" "Org" "ops@example.com" "CSRPEM").store.rows
          = (⟨[], 1⟩ : Store).rows ++ [e'] :=
  createEnrollment_success (constSubject "api.example.com") ⟨[], 1⟩ 0
    "api.example.com" "Org" "ops@example.com" "CSRPEM"
    ⟨"api.example.com"⟩ rfl rfl

/-- C3: on a record whose status is not "pending", both `ApproveEnrollment`
and `RejectEnrollment` fail with the invalid-transition error and leave the
store unchanged; moreover, a second approve immediately after a successful
approve fails, and an approve after a successful reject fails. -/
theorem notPending_transitions_blocked (availW : Bool) (st : Store)
    (now now2 : Nat) (id approvedBy approvedBy2 rejectedBy reason : String)
    (e : Enrollment) (hget : st.getById true id = .ok e) :
    (e.status ≠ "pending" →
      ApproveEnrollment true availW st now id approvedBy
          = ⟨.error .invalidTransition, st, [.getById id], 0⟩
      ∧ RejectEnrollment true availW st now id rejectedBy reason
          = ⟨.error .invalidTransition, st, [.getById id], 0⟩)
    ∧ (e.status = "pending" →
      (ApproveEnrollment true true
          (ApproveEnrollment true true st now id approvedBy).store
          now2 id approvedBy2).res = .error .invalidTransition
      ∧ (ApproveEnrollment true true
          (RejectEnrollment true true st now id rejectedBy reason).store
          now2 id approvedBy2).res = .error .invalidTransition) := by
  have hfind := (getById_eq_ok hget).1
  have heid := getById_ok_id hget
  constructor
  · intro hst
    exact ⟨approve_notPending availW st now id approvedBy e hget hst,
           reject_notPending availW st now id rejectedBy reason e hget hst⟩
  · intro hpend
    constructor
    · have hst1 : (ApproveEnrollment true true st now id approvedBy).store
          = ⟨st.rows.map (fun row =>
              if row.id = (approvedVersion e approvedBy now).id
              then row.applyUpdate (approvedVersion e approvedBy now) else row),
             st.nextId⟩ := by
        simp [ApproveEnrollment, hget, hpend, update_true]
      have hg2 := getById_after_update st e (approvedVersion e approvedBy now)
        id hfind heid heid
      have happ := approve_notPending true _ now2 id approvedBy2
        (e.applyUpdate (approvedVersion e approvedBy now)) hg2
        (by simp [Enrollment.applyUpdate, approvedVersion])
      rw [hst1, happ]
    · have hst1 : (RejectEnrollment true true st now id rejectedBy reason).store
          = ⟨st.rows.map (fun row =>
              if row.id = (rejectedVersion e rejectedBy reason now).id
              then row.applyUpdate (rejectedVersion e rejectedBy reason now)
              else row),
             st.nextId⟩ := by
        simp [RejectEnrollment, hget, hpend, update_true]
      have hg2 := getById_after_update st e
        (rejectedVersion e rejectedBy reason now) id hfind heid heid
      have happ := approve_notPending true _ now2 id approvedBy2
        (e.applyUpdate (rejectedVersion e rejectedBy reason now)) hg2
        (by simp [Enrollment.applyUpdate, rejectedVersion])
      rw [hst1, happ]

/-- C3 witness: the double-approve and approve-after-reject scenarios on
the concrete pending store, and the blocked transitions on the concrete
approved store. -/
theorem notPending_transitions_blocked_witness :
    (ApproveEnrollment true true
        (ApproveEnrollment true true pendingStore 1 "1" "alice").store
        2 "1" "carol").res = .error .invalidTransition
    ∧ (ApproveEnrollment true true
        (RejectEnrollment true true pendingStore 1 "1" "bob" "duplicate request").store
        2 "1" "carol").res = .error .invalidTransition :=
  (notPending_transitions_blocked true pendingStore 1 2 "1" "alice" "carol"
    "bob" "duplicate request" pendingRecord rfl).2 rfl

/-- C6: a successful approve on a pending record returns ok, persists the
record with status "approved", the approver recorded and updated_at set to
the current time (which advances it, given a monotone clock), and makes no
CA-gateway call. -/
theorem approveEnrollment_success (st : Store) (now : Nat)
    (id approvedBy : String) (e : Enrollment)
    (hget : st.getById true id = .ok e) (hpend : e.status = "pending")
    (hmono : e.updatedAt ≤ now) :
    ApproveEnrollment true true st now id approvedBy =
      ⟨.ok (),
       ⟨st.rows.map (fun row =>
          if row.id = (approvedVersion e approvedBy now).id
          then row.applyUpdate (approvedVersion e approvedBy now) else row),
        st.nextId⟩,
       [.getById id, .update (approvedVersion e approvedBy now)],
       0⟩
    ∧ (approvedVersion e approvedBy now).status = "approved"
    ∧ (approvedVersion e approvedBy now).approvedBy = some approvedBy
    ∧ e.updatedAt ≤ (approvedVersion e approvedBy now).updatedAt := by
  refine ⟨?_, rfl, rfl, ?_⟩
  · simp [ApproveEnrollment, hget, hpend, update_true]
  · simpa [approvedVersion] using hmono

/-- C6 witness: approving the concrete pending record. -/
theorem approveEnrollment_success_witness :
    ApproveEnrollment true true pendingStore 1 "1" "alice" =
      ⟨.ok (),
       ⟨pendingStore.rows.map (fun row =>
          if row.id = (approvedVersion pendingRecord "alice" 1).id
          then row.applyUpdate (approvedVersion pendingRecord "alice" 1)
          else row),
        pendingStore.nextId⟩,
       [.getById "1", .update (approvedVersion pendingRecord "alice" 1)],
       0⟩
    ∧ (approvedVersion pendingRecord "alice" 1).status = "approved"
    ∧ (approvedVersion pendingRecord "alice" 1).approvedBy = some "alice"
    ∧ pendingRecord.updatedAt ≤ (approvedVersion pendingRecord "alice" 1).updatedAt :=
  approveEnrollment_success pendingStore 1 "1" "alice" pendingRecord rfl rfl
    (Nat.zero_le 1)

/-- C8 counterexample: the pending record with id "1" exists in the store,
yet with the database unreachable `ApproveEnrollment` reports the not-found
wrapper — a transient storage read failure is reported as NotFound, so the
claim as stated fails. -/
theorem storage_error_reported_as_notFound :
    pendingStore.rows.find? (fun r => r.id = "1") = some pendingRecord
    ∧ (ApproveEnrollment false true pendingStore 0 "1" "alice").res
        = .error (.notFound .unavailable) :=
  ⟨rfl, rfl⟩

/-- C8 (amended): `ApproveEnrollment` and `RejectEnrollment` report every
`GetByID` failure — row absent and storage unreachable alike — as the same
not-found error wrapping the storage cause; with storage available a
missing id yields the noRows cause, and an unreachable store yields the
unavailable cause through the very same not-found path. -/
theorem notFound_wraps_every_read_failure (availR availW : Bool) (st : Store)
    (now : Nat) (id approvedBy rejectedBy reason : String) :
    (∀ s, st.getById availR id = .error s →
      (ApproveEnrollment availR availW st now id approvedBy).res
          = .error (.notFound s)
      ∧ (RejectEnrollment availR availW st now id rejectedBy reason).res
          = .error (.notFound s))
    ∧ (st.rows.find? (fun r => r.id = id) = none →
        st.getById true id = .error .noRows)
    ∧ st.getById false id = .error .unavailable := by
  refine ⟨?_, ?_, rfl⟩
  · intro s hs
    constructor <;> simp [ApproveEnrollment, RejectEnrollment, hs]
  · intro hnone
    rw [getById_true, hnone]

/-- C8 witness: with the database down, both operations report the
not-found wrapper around the unavailable cause. -/
theorem notFound_wraps_every_read_failure_witness :
    (ApproveEnrollment false true pendingStore 0 "1" "alice").res
        = .error (.notFound .unavailable)
    ∧ (RejectEnrollment false true pendingStore 0 "1" "bob" "dup").res
        = .error (.notFound .unavailable) :=
  (notFound_wraps_every_read_failure false true pendingStore 0 "1" "alice"
    "bob" "dup").1 .unavailable rfl

/-- Decomposition: `ApproveEnrollment` with live storage is exactly its read phase
followed by its commit phase. -/
theorem approve_is_check_then_commit (st : Store) (now : Nat)
    (id approvedBy : String) :
    ApproveEnrollment true true st now id approvedBy =
      match approveCheck st id with
      | .error err => ⟨.error err, st, [.getById id], 0⟩
      | .ok e => ⟨.ok (), approveCommit st e approvedBy now,
          [.getById id, .update (approvedVersion e approvedBy now)], 0⟩ := by
  unfold ApproveEnrollment approveCheck approveCommit
  cases h : st.getById true id with
  | error s => simp
  | ok e => by_cases hs : e.status = "pending" <;> simp [hs, update_true]

/-- Decomposition: `RejectEnrollment` with live storage is exactly its read phase followed
by its commit phase. -/
theorem reject_is_check_then_commit (st : Store) (now : Nat)
    (id rejectedBy reason : String) :
    RejectEnrollment true true st now id rejectedBy reason =
      match rejectCheck st id with
      | .error err => ⟨.error err, st, [.getById id], 0⟩
      | .ok e => ⟨.ok (), rejectCommit st e rejectedBy reason now,
          [.getById id, .update (rejectedVersion e rejectedBy reason now)], 0⟩ := by
  unfold RejectEnrollment rejectCheck rejectCommit
  cases h : st.getById true id with
  | error s => simp
  | ok e => by_cases hs : e.status = "pending" <;> simp [hs, update_true]

/-- C2: the source's UPDATE is unconditional (WHERE id only, affected-row
count discarded), so two callers racing on the same pending record — both
read phases running before either write phase — both pass the "pending"
check and both writes then succeed: the reject write silently overwrites
the committed approval, and neither caller observes InvalidTransition.
This exhibits the interleaving `approve.read, reject.read, approve.write,
reject.write` on the concrete pending store. -/
theorem unconditional_update_race :
    approveCheck pendingStore "1" = .ok pendingRecord
    ∧ rejectCheck pendingStore "1" = .ok pendingRecord
    ∧ (approveCommit pendingStore pendingRecord "alice" 1).rows
        = [approvedVersion pendingRecord "alice" 1]
    ∧ (rejectCommit (approveCommit pendingStore pendingRecord "alice" 1)
        pendingRecord "bob" "duplicate request" 2).rows
        = [rejectedVersion pendingRecord "bob" "duplicate request" 2]
    ∧ (ApproveEnrollment true true pendingStore 1 "1" "alice").res = .ok () :=
  ⟨rfl, rfl, rfl, rfl, rfl⟩

theorem mem_insertByCreated {a e : Enrollment} {l : List Enrollment} :
    a ∈ insertByCreated e l ↔ a = e ∨ a ∈ l := by
  induction l with
  | nil => simp [insertByCreated]
  | cons x xs ih =>
    by_cases h : x.createdAt ≤ e.createdAt
    · simp [insertByCreated, h]
    · simp only [insertByCreated, if_neg h, List.mem_cons, ih]
      tauto

theorem sorted_insertByCreated {e : Enrollment} {l : List Enrollment}
    (hl : l.Sorted (fun a b => b.createdAt ≤ a.createdAt)) :
    (insertByCreated e l).Sorted (fun a b => b.createdAt ≤ a.createdAt) := by
  induction l with
  | nil => simp [insertByCreated]
  | cons x xs ih =>
    rcases List.sorted_cons.mp hl with ⟨hx, hxs⟩
    by_cases h : x.createdAt ≤ e.createdAt
    · rw [insertByCreated, if_pos h]
      refine List.sorted_cons.mpr ⟨?_, hl⟩
      intro b hb
      rcases List.mem_cons.mp hb with rfl | hb
      · exact h
      · exact le_trans (hx b hb) h
    · rw [insertByCreated, if_neg h]
      refine List.sorted_cons.mpr ⟨?_, ih hxs⟩
      intro b hb
      rcases mem_insertByCreated.mp hb with rfl | hb
      · exact Nat.le_of_lt (Nat.lt_of_not_le h)
      · exact hx b hb

theorem sorted_sortByCreatedDesc (l : List Enrollment) :
    (sortByCreatedDesc l).Sorted (fun a b => b.createdAt ≤ a.createdAt) := by
  induction l with
  | nil => simp [sortByCreatedDesc]
  | cons x xs ih => exact sorted_insertByCreated ih

theorem mem_sortByCreatedDesc {a : Enrollment} {l : List Enrollment} :
    a ∈ sortByCreatedDesc l ↔ a ∈ l := by
  induction l with
  | nil => simp [sortByCreatedDesc]
  | cons x xs ih =>
    simp [sortByCreatedDesc, mem_insertByCreated, ih]

/-- C9: with live storage, `List` returns rows ordered by creation time
descending, at most 100 of them, and — when a non-empty status filter is
supplied — every returned row carries exactly that status. -/
theorem listEnrollments_spec (st : Store) (statusFilter : String) :
    ∃ l, ListEnrollments true st statusFilter = .ok l
      ∧ l.Sorted (fun a b => b.createdAt ≤ a.createdAt)
      ∧ l.length ≤ 100
      ∧ (statusFilter ≠ "" → ∀ e ∈ l, e.status = statusFilter) := by
  refine ⟨_, rfl, ?_, ?_, ?_⟩
  · exact List.Pairwise.sublist (List.take_sublist _ _)
      (sorted_sortByCreatedDesc _)
  · exact List.length_take_le _ _
  · intro hne e he
    have hmem := List.take_subset _ _ he
    rw [mem_sortByCreatedDesc] at hmem
    rw [if_pos hne] at hmem
    exact of_decide_eq_true (List.mem_filter.mp hmem).2

/-- C9 witness: listing the concrete pending store with the "pending"
filter. -/
theorem listEnrollments_spec_witness :
    ∃ l, ListEnrollments true pendingStore "pending" = .ok l
      ∧ l.Sorted (fun a b => b.createdAt ≤ a.createdAt)
      ∧ l.length ≤ 100
      ∧ ("pending" ≠ "" → ∀ e ∈ l, e.status = "pending") :=
  listEnrollments_spec pendingStore "pending"

/-- C4 (spec-modelled): `RequestIssuance` on an approved record with a
transiently failing CA leaves the record in "issuance_failed" with no
serial and signals the retryable CA error; a subsequent call on that
record with a succeeding CA moves it to "issued" and records the serial
the CA returned. -/
theorem requestIssuance_transient_then_retry (r : IssuanceRecord)
    (certPEM serial : String) (happ : r.status = "approved")
    (hser : r.certificateSerial = none) :
    (RequestIssuance .transient r).1 = .error .caTransient
    ∧ (RequestIssuance .transient r).2.status = "issuance_failed"
    ∧ (RequestIssuance .transient r).2.certificateSerial = none
    ∧ (RequestIssuance (.signed certPEM serial)
        (RequestIssuance .transient r).2).1 = .ok ()
    ∧ (RequestIssuance (.signed certPEM serial)
        (RequestIssuance .transient r).2).2.status = "issued"
    ∧ (RequestIssuance (.signed certPEM serial)
        (RequestIssuance .transient r).2).2.certificateSerial = some serial := by
  have h1 : RequestIssuance .transient r
      = (.error .caTransient, { r with status := "issuance_failed" }) := by
    simp [RequestIssuance, happ]
  rw [h1]
  refine ⟨rfl, rfl, by simpa using hser, ?_, ?_, ?_⟩ <;> simp [RequestIssuance]

/-- C4 witness: the retry scenario on a concrete approved record. -/
theorem requestIssuance_transient_then_retry_witness :
    (RequestIssuance .transient ⟨"approved", none, "CSRPEM"⟩).1
        = .error .caTransient
    ∧ (RequestIssuance .transient ⟨"approved", none, "CSRPEM"⟩).2.status
        = "issuance_failed"
    ∧ (RequestIssuance .transient
        ⟨"approved", none, "CSRPEM"⟩).2.certificateSerial = none
    ∧ (RequestIssuance (.signed "CERTPEM" "1D4F")
        (RequestIssuance .transient ⟨"approved", none, "CSRPEM"⟩).2).1 = .ok ()
    ∧ (RequestIssuance (.signed "CERTPEM" "1D4F")
        (RequestIssuance .transient ⟨"approved", none, "CSRPEM"⟩).2).2.status
        = "issued"
    ∧ (RequestIssuance (.signed "CERTPEM" "1D4F")
        (RequestIssuance .transient
          ⟨"approved", none, "CSRPEM"⟩).2).2.certificateSerial = some "1D4F" :=
  requestIssuance_transient_then_retry ⟨"approved", none, "CSRPEM"⟩
    "CERTPEM" "1D4F" rfl rfl

/-- The store after `CreateEnrollment`: unchanged, or extended by one
pending record with no actor fields. -/
theorem create_store_rows (parse : String → Option ParsedCSR) (avail : Bool)
    (st : Store) (now : Nat) (cn org email csrPEM : String) :
    (CreateEnrollment parse avail st now cn org email csrPEM).store = st
    ∨ ∃ e', (CreateEnrollment parse avail st now cn org email csrPEM).store
          = ⟨st.rows ++ [e'], st.nextId + 1⟩
        ∧ e'.status = "pending" ∧ e'.approvedBy = none
        ∧ e'.rejectedBy = none ∧ e'.rejectReason = none := by
  cases hp : parse csrPEM with
  | none => left; simp [CreateEnrollment, hp]
  | some csr =>
    by_cases hcn : csr.subjectCommonName = cn
    · cases avail with
      | false => left; simp [CreateEnrollment, hp, hcn, Store.create]
      | true =>
        right
        refine ⟨{ id := toString st.nextId, commonName := cn,
                  organization := org, email := email, csr := csrPEM,
                  status := "pending", approvedBy := none, rejectedBy := none,
                  rejectReason := none, createdAt := now, updatedAt := now },
                ?_, rfl, rfl, rfl, rfl⟩
        simp [CreateEnrollment, hp, hcn, Store.create]
    · left; simp [CreateEnrollment, hp, hcn]

/-- The store after `ApproveEnrollment`: unchanged, or the unconditional
UPDATE applied for a record that was read in status "pending". -/
theorem approve_store_rows (availR availW : Bool) (st : Store) (now : Nat)
    (id approvedBy : String) :
    (ApproveEnrollment availR availW st now id approvedBy).store = st
    ∨ ∃ e, st.getById availR id = .ok e ∧ e.status = "pending"
        ∧ (ApproveEnrollment availR availW st now id approvedBy).store
          = ⟨st.rows.map (fun row =>
              if row.id = (approvedVersion e approvedBy now).id
              then row.applyUpdate (approvedVersion e approvedBy now) else row),
             st.nextId⟩ := by
  cases hget : st.getById availR id with
  | error s => left; simp [ApproveEnrollment, hget]
  | ok e =>
    by_cases hs : e.status = "pending"
    · cases availW with
      | false => left; simp [ApproveEnrollment, hget, hs, Store.update]
      | true =>
        right
        exact ⟨e, rfl, hs, by simp [ApproveEnrollment, hget, hs, update_true]⟩
    · left; simp [ApproveEnrollment, hget, hs]

/-- The store after `RejectEnrollment`: unchanged, or the unconditional
UPDATE applied for a record that was read in status "pending". -/
theorem reject_store_rows (availR availW : Bool) (st : Store) (now : Nat)
    (id rejectedBy reason : String) :
    (RejectEnrollment availR availW st now id rejectedBy reason).store = st
    ∨ ∃ e, st.getById availR id = .ok e ∧ e.status = "pending"
        ∧ (RejectEnrollment availR availW st now id rejectedBy reason).store
          = ⟨st.rows.map (fun row =>
              if row.id = (rejectedVersion e rejectedBy reason now).id
              then row.applyUpdate (rejectedVersion e rejectedBy reason now)
              else row),
             st.nextId⟩ := by
  cases hget : st.getById availR id with
  | error s => left; simp [RejectEnrollment, hget]
  | ok e =>
    by_cases hs : e.status = "pending"
    · cases availW with
      | false => left; simp [RejectEnrollment, hget, hs, Store.update]
      | true =>
        right
        exact ⟨e, rfl, hs, by simp [RejectEnrollment, hget, hs, update_true]⟩
    · left; simp [RejectEnrollment, hget, hs]

/-- Every row of every reachable store satisfies the record invariant. -/
theorem reachable_recordInv {st : Store} (h : Reachable st) :
    ∀ e ∈ st.rows, RecordInv e := by
  induction h with
  | empty => intro e he; simp at he
  | create parse avail now cn org email csrPEM hst ih =>
    intro b hb
    rcases create_store_rows parse avail _ now cn org email csrPEM with
      heq | ⟨e', heq, hp1, hp2, hp3, hp4⟩
    · rw [heq] at hb; exact ih b hb
    · rw [heq] at hb
      rcases List.mem_append.mp hb with hb | hb
      · exact ih b hb
      · rcases List.mem_singleton.mp hb with rfl
        exact Or.inl ⟨hp1, hp2, hp3, hp4⟩
  | approve availR availW now id approvedBy hst ih =>
    intro b hb
    rcases approve_store_rows availR availW _ now id approvedBy with
      heq | ⟨e, hget, hpend, heq⟩
    · rw [heq] at hb; exact ih b hb
    · rw [heq] at hb
      obtain ⟨a, ha, rfl⟩ := List.mem_map.mp hb
      have hre : e.rejectedBy = none ∧ e.rejectReason = none := by
        rcases ih e (List.mem_of_find?_eq_some (getById_eq_ok hget).1) with
          ⟨h1, h2, h3, h4⟩ | ⟨h1, h2, h3, h4⟩ | ⟨h1, h2, h3, h4⟩
        · exact ⟨h3, h4⟩
        · rw [hpend] at h1; simp at h1
        · rw [hpend] at h1; simp at h1
      by_cases hid : a.id = (approvedVersion e approvedBy now).id
      · rw [if_pos hid]
        exact Or.inr (Or.inl ⟨rfl, rfl, hre.1, hre.2⟩)
      · rw [if_neg hid]; exact ih a ha
  | reject availR availW now id rejectedBy reason hst ih =>
    intro b hb
    rcases reject_store_rows availR availW _ now id rejectedBy reason with
      heq | ⟨e, hget, hpend, heq⟩
    · rw [heq] at hb; exact ih b hb
    · rw [heq] at hb
      obtain ⟨a, ha, rfl⟩ := List.mem_map.mp hb
      have hap : e.approvedBy = none := by
        rcases ih e (List.mem_of_find?_eq_some (getById_eq_ok hget).1) with
          ⟨h1, h2, h3, h4⟩ | ⟨h1, h2, h3, h4⟩ | ⟨h1, h2, h3, h4⟩
        · exact h2
        · rw [hpend] at h1; simp at h1
        · rw [hpend] at h1; simp at h1
      by_cases hid : a.id = (rejectedVersion e rejectedBy reason now).id
      · rw [if_pos hid]
        exact Or.inr (Or.inr ⟨rfl, hap, rfl, rfl⟩)
      · rw [if_neg hid]; exact ih a ha

/-- C7: in every record reachable through the public operations,
approved_by is set exactly when the status is in
\x7bapproved, issued, issuance_failed\x7d, rejected_by and reject_reason are set
exactly when the status is "rejected", and the two actor fields are never
both set. -/
theorem actorFields_iff_status (st : Store) (e : Enrollment)
    (hst : Reachable st) (he : e ∈ st.rows) :
    (e.approvedBy.isSome ↔
      (e.status = "approved" ∨ e.status = "issued" ∨ e.status = "issuance_failed"))
    ∧ ((e.rejectedBy.isSome ∧ e.rejectReason.isSome) ↔ e.status = "rejected")
    ∧ ¬(e.approvedBy.isSome ∧ e.rejectedBy.isSome) := by
  rcases reachable_recordInv hst e he with
    ⟨h1, h2, h3, h4⟩ | ⟨h1, h2, h3, h4⟩ | ⟨h1, h2, h3, h4⟩ <;>
      simp [h1, h2, h3, h4]

/-- C7 witness: the invariant evaluated on the concrete reachable store
holding one approved record. -/
theorem actorFields_iff_status_witness :
    (demoApprovedRecord.approvedBy.isSome ↔
      (demoApprovedRecord.status = "approved" ∨ demoApprovedRecord.status = "issued"
        ∨ demoApprovedRecord.status = "issuance_failed"))
    ∧ ((demoApprovedRecord.rejectedBy.isSome ∧ demoApprovedRecord.rejectReason.isSome)
        ↔ demoApprovedRecord.status = "rejected")
    ∧ ¬(demoApprovedRecord.approvedBy.isSome ∧ demoApprovedRecord.rejectedBy.isSome) :=
  actorFields_iff_status demoApprovedStore demoApprovedRecord
    (Reachable.approve true true 1 "1" "alice"
      (Reachable.create (constSubject "svc.internal") true 0 "svc.internal"
        "Ops" "ops@example.com" "CSRPEM" Reachable.empty))
    (by decide)

/-- C10: every record reachable through the public operations has one of
the three status strings the service writes — "pending" (create),
"approved" (approve), "rejected" (reject); no reachable record carries
status "issued" or "issuance_failed". -/
theorem status_values_closed (st : Store) (e : Enrollment)
    (hst : Reachable st) (he : e ∈ st.rows) :
    e.status = "pending" ∨ e.status = "approved" ∨ e.status = "rejected" := by
  rcases reachable_recordInv hst e he with h | h | h
  · exact Or.inl h.1
  · exact Or.inr (Or.inl h.1)
  · exact Or.inr (Or.inr h.1)

/-- C10 witness: the status of the record in the concrete reachable
approved store is among the three written values. -/
theorem status_values_closed_witness :
    demoApprovedRecord.status = "pending" ∨ demoApprovedRecord.status = "approved"
      ∨ demoApprovedRecord.status = "rejected" :=
  status_values_closed demoApprovedStore demoApprovedRecord
    (Reachable.approve true true 1 "1" "alice"
      (Reachable.create (constSubject "svc.internal") true 0 "svc.internal"
        "Ops" "ops@example.com" "CSRPEM" Reachable.empty))
    (by decide)

end RA
